import Mathlib

set_option maxHeartbeats 1000000

/-!
Verification development for the NeoLoad utility request-transcript parser
(`NeoloadUtility.py`).  The Python source is shallowly embedded: Python dicts
become insertion-ordered association lists, `None`/JSON values become the
`Json` type below, and fallible code returns `Except`.
-/

namespace NeoloadUtility

/-- Python values as handled by the program: the results of `json.loads`
(dict, list, str, int, float, bool, None).  A float keeps its source literal,
since the program never inspects a float's numeric value (only its type tag
and truthiness). -/
inductive Json where
  | null  : Json
  | bool  : Bool → Json
  | int   : Int → Json
  | float : String → Json
  | str   : String → Json
  | arr   : List Json → Json
  | obj   : List (String × Json) → Json

/-! Character-level models of the Python string methods the program uses
(`startswith`, `lower`, `upper`, `strip`, `split`, single-character
`replace`).  They work on `String.data` so that concrete runs reduce inside
the kernel; `strip`/case-mapping cover the ASCII range, which is all the
program's fixed tokens need. -/

def pyStartsWith (s pre : String) : Bool := pre.data.isPrefixOf s.data

def pyLower (s : String) : String := String.mk (s.data.map Char.toLower)

def pyUpper (s : String) : String := String.mk (s.data.map Char.toUpper)

def pyStrip (s : String) : String :=
  String.mk (((s.data.dropWhile Char.isWhitespace).reverse.dropWhile Char.isWhitespace).reverse)

def replaceChar (a b : Char) (s : String) : String :=
  String.mk (s.data.map (fun c => if c = a then b else c))

def splitCharAux (c : Char) : List Char → List Char → List String
  | [], cur => [String.mk cur.reverse]
  | x :: xs, cur =>
    if x = c then String.mk cur.reverse :: splitCharAux c xs []
    else splitCharAux c xs (x :: cur)

/-- Python `s.split(c)` for a one-character separator (`''.split(c) = ['']`,
adjacent separators yield empty fields). -/
def splitOnChar (c : Char) (s : String) : List String := splitCharAux c s.data []

/-- First-match association-list lookup (Python dict lookup; the update
discipline below keeps keys unique). -/
def assocLookup {α β : Type} [DecidableEq α] : List (α × β) → α → Option β
  | [], _ => none
  | (k', v) :: t, k => if k' = k then some v else assocLookup t k

/-- Python dict assignment `d[k] = v`: replace in place when the key exists
(keeping its original position), append otherwise. -/
def updateAssoc {α β : Type} [DecidableEq α] : List (α × β) → α → β → List (α × β)
  | [], k, v => [(k, v)]
  | (k', v') :: t, k, v => if k' = k then (k', v) :: t else (k', v') :: updateAssoc t k v

/-- Does a float literal (from the grammar of the JSON number scanner, or the
literals NaN, Infinity and -Infinity) denote the value zero?  Zero exactly when the
mantissa has no nonzero digit.  (Exponent-underflow to 0.0 is a floating-point
corner deliberately out of scope.) -/
def floatLitIsZero (lit : String) : Bool :=
  if lit = "NaN" ∨ lit = "Infinity" ∨ lit = "-Infinity" then false
  else !((lit.data.takeWhile (fun c => c ≠ 'e' ∧ c ≠ 'E')).any (fun c => c.isDigit ∧ c ≠ '0'))

/-- Python truthiness of a value (`bool(x)`). -/
def pyTruthy : Json → Bool
  | Json.null => false
  | Json.bool b => b
  | Json.int n => n ≠ 0
  | Json.float lit => !(floatLitIsZero lit)
  | Json.str s => s ≠ ""
  | Json.arr l => !l.isEmpty
  | Json.obj l => !l.isEmpty

/-- Decimal digit character, `str(d)` for `d < 10`. -/
def digitChar : Nat → Char
  | 0 => '0' | 1 => '1' | 2 => '2' | 3 => '3' | 4 => '4'
  | 5 => '5' | 6 => '6' | 7 => '7' | 8 => '8' | _ => '9'

/-- Fuel-driven decimal digit list of a natural number (most significant
first); correct whenever `n < fuel`. -/
def decDigitsAux : Nat → Nat → List Char
  | 0, _ => []
  | fuel + 1, n =>
    if n < 10 then [digitChar n]
    else decDigitsAux fuel (n / 10) ++ [digitChar (n % 10)]

/-- Python `str(n)` for a natural number. -/
def decimalStr (n : Nat) : String := String.mk (decDigitsAux (n + 1) n)

/-- `split(sep, 1)` on the first occurrence of a character: `some (before,
after)` when the character occurs, `none` otherwise. -/
def breakOnChar (c : Char) : List Char → Option (List Char × List Char)
  | [] => none
  | x :: xs =>
    if x = c then some ([], xs)
    else (breakOnChar c xs).map (fun p => (x :: p.1, p.2))

/-- Python `s.split(sep, 1)` for a single-character separator, on strings. -/
def splitOnce (c : Char) (s : String) : Option (String × String) :=
  (breakOnChar c s.data).map (fun p => (String.mk p.1, String.mk p.2))

/-- Python `s.strip(ch)` for a single strip character: remove that character
from both ends. -/
def pyStripChar (ch : Char) (s : String) : String :=
  String.mk (((s.data.dropWhile (fun c => c = ch)).reverse.dropWhile (fun c => c = ch)).reverse)

/-! ## The shell-style tokenizer (`shlex.split`, POSIX mode)

`shlex.split` scans left to right: whitespace separates tokens, `'…'` spans
are literal, `"…"` spans allow `\` to escape `\` and `"` (a backslash before
any other character is kept verbatim), and outside quotes `\` escapes any
single character.  An unterminated quote raises `ValueError("No closing
quotation")`; a trailing backslash raises `ValueError("No escaped
character")`. -/

/-- Scanner state: between tokens, inside a word, inside single or double
quotes, or just after a backslash (remembering the state to return to:
`false` = plain word, `true` = inside double quotes). -/
inductive ShState where
  | ws     : ShState
  | word   : ShState
  | squote : ShState
  | dquote : ShState
  | esc    : Bool → ShState

def shWhitespace (c : Char) : Bool := c = ' ' ∨ c = '\t' ∨ c = '\r' ∨ c = '\n'

/-- One left-to-right scan of the input.  `tok = none` means no token has
started (a quote makes the pending token `some ""`, so `""` arguments
survive).  Tokens are accumulated in reverse in `acc`. -/
def shlexScan : ShState → Option String → List String → List Char →
    Except String (List String)
  | ShState.ws, _, acc, [] => Except.ok acc.reverse
  | ShState.ws, tok, acc, c :: rest =>
    if shWhitespace c then shlexScan ShState.ws tok acc rest
    else if c = '\'' then shlexScan ShState.squote (some (tok.getD "")) acc rest
    else if c = '"' then shlexScan ShState.dquote (some (tok.getD "")) acc rest
    else if c = '\\' then shlexScan (ShState.esc false) tok acc rest
    else shlexScan ShState.word (some (String.mk [c])) acc rest
  | ShState.word, tok, acc, [] => Except.ok (acc.reverse ++ [tok.getD ""])
  | ShState.word, tok, acc, c :: rest =>
    if shWhitespace c then shlexScan ShState.ws none (tok.getD "" :: acc) rest
    else if c = '\'' then shlexScan ShState.squote tok acc rest
    else if c = '"' then shlexScan ShState.dquote tok acc rest
    else if c = '\\' then shlexScan (ShState.esc false) tok acc rest
    else shlexScan ShState.word (some (tok.getD "" ++ String.mk [c])) acc rest
  | ShState.squote, _, _, [] => Except.error "No closing quotation"
  | ShState.squote, tok, acc, c :: rest =>
    if c = '\'' then shlexScan ShState.word tok acc rest
    else shlexScan ShState.squote (some (tok.getD "" ++ String.mk [c])) acc rest
  | ShState.dquote, _, _, [] => Except.error "No closing quotation"
  | ShState.dquote, tok, acc, c :: rest =>
    if c = '"' then shlexScan ShState.word tok acc rest
    else if c = '\\' then shlexScan (ShState.esc true) tok acc rest
    else shlexScan ShState.dquote (some (tok.getD "" ++ String.mk [c])) acc rest
  | ShState.esc _, _, _, [] => Except.error "No escaped character"
  | ShState.esc inDq, tok, acc, c :: rest =>
    -- inside double quotes only `\` and `"` are escapable; otherwise the
    -- backslash itself is kept
    let piece := if inDq ∧ c ≠ '\\' ∧ c ≠ '"' then String.mk ['\\', c] else String.mk [c]
    shlexScan (if inDq then ShState.dquote else ShState.word)
      (some (tok.getD "" ++ piece)) acc rest

/-- `shlex.split(s)` (POSIX mode, whitespace splitting, no comments). -/
def shlexSplit (s : String) : Except String (List String) :=
  shlexScan ShState.ws none [] s.data

/-! ## `json.loads`

A fuel-driven recursive-descent scanner for the `json` module's grammar:
objects, arrays, strings with escapes, numbers (`int` when there is no
fraction and no exponent, `float` otherwise), `true`/`false`/`null`, and the
non-standard `NaN`/`Infinity` literals the module accepts.  Duplicate object
keys follow dict semantics (last value wins, first position kept).  `none`
models `json.JSONDecodeError`. -/

def jsonWsChar (c : Char) : Bool := c = ' ' ∨ c = '\t' ∨ c = '\n' ∨ c = '\r'

def skipJsonWs (cs : List Char) : List Char := cs.dropWhile jsonWsChar

def hexVal (c : Char) : Option Nat :=
  if '0' ≤ c ∧ c ≤ '9' then some (c.toNat - 48)
  else if 'a' ≤ c ∧ c ≤ 'f' then some (c.toNat - 87)
  else if 'A' ≤ c ∧ c ≤ 'F' then some (c.toNat - 55)
  else none

/-- JSON string body scanner (after the opening quote).  A raw control
character is rejected (strict mode).  `\uXXXX` surrogate pairs are combined;
a lone surrogate (which Python keeps as a lone surrogate code unit, a value a
Lean `Char` cannot hold) becomes U+FFFD. -/
def jsonStringAux : Nat → List Char → List Char → Option (String × List Char)
  | 0, _, _ => none
  | _ + 1, _, [] => none
  | fuel + 1, acc, c :: rest =>
    if c = '"' then some (String.mk acc.reverse, rest)
    else if c = '\\' then
      match rest with
      | [] => none
      | e :: rest1 =>
        if e = '"' then jsonStringAux fuel ('"' :: acc) rest1
        else if e = '\\' then jsonStringAux fuel ('\\' :: acc) rest1
        else if e = '/' then jsonStringAux fuel ('/' :: acc) rest1
        else if e = 'b' then jsonStringAux fuel (Char.ofNat 8 :: acc) rest1
        else if e = 'f' then jsonStringAux fuel (Char.ofNat 12 :: acc) rest1
        else if e = 'n' then jsonStringAux fuel ('\n' :: acc) rest1
        else if e = 'r' then jsonStringAux fuel ('\r' :: acc) rest1
        else if e = 't' then jsonStringAux fuel ('\t' :: acc) rest1
        else if e = 'u' then
          match rest1 with
          | h1 :: h2 :: h3 :: h4 :: rest2 =>
            match hexVal h1, hexVal h2, hexVal h3, hexVal h4 with
            | some a, some b, some c2, some d =>
              let code := ((a * 16 + b) * 16 + c2) * 16 + d
              if 0xD800 ≤ code ∧ code < 0xDC00 then
                match rest2 with
                | '\\' :: 'u' :: g1 :: g2 :: g3 :: g4 :: rest3 =>
                  match hexVal g1, hexVal g2, hexVal g3, hexVal g4 with
                  | some a2, some b2, some c3, some d2 =>
                    let lo := ((a2 * 16 + b2) * 16 + c3) * 16 + d2
                    if 0xDC00 ≤ lo ∧ lo < 0xE000 then
                      jsonStringAux fuel
                        (Char.ofNat (0x10000 + (code - 0xD800) * 0x400 + (lo - 0xDC00)) :: acc) rest3
                    else jsonStringAux fuel (Char.ofNat 0xFFFD :: acc) rest2
                  | _, _, _, _ => jsonStringAux fuel (Char.ofNat 0xFFFD :: acc) rest2
                | _ => jsonStringAux fuel (Char.ofNat 0xFFFD :: acc) rest2
              else if 0xDC00 ≤ code ∧ code < 0xE000 then
                jsonStringAux fuel (Char.ofNat 0xFFFD :: acc) rest2
              else jsonStringAux fuel (Char.ofNat code :: acc) rest2
            | _, _, _, _ => none
          | _ => none
        else none
    else if c.toNat < 0x20 then none
    else jsonStringAux fuel (c :: acc) rest

def digitsToNat (l : List Char) : Nat := l.foldl (fun a c => a * 10 + (c.toNat - 48)) 0

/-- Finish scanning a number after the integer digits, consuming an optional
fraction and exponent exactly as the module's `NUMBER_RE` does (a lone `.` or
an exponent without digits is not consumed). -/
def finishNum (neg : Bool) (intds rest : List Char) : Json × List Char :=
  let fr : List Char × List Char :=
    match rest with
    | '.' :: t =>
      let ds := t.takeWhile Char.isDigit
      if ds.isEmpty then ([], rest) else ('.' :: ds, t.dropWhile Char.isDigit)
    | _ => ([], rest)
  let ex : List Char × List Char :=
    match fr.2 with
    | e :: t =>
      if e = 'e' ∨ e = 'E' then
        let sd : List Char × List Char :=
          match t with
          | s :: t2 => if s = '+' ∨ s = '-' then ([s], t2) else ([], t)
          | [] => ([], t)
        let ds := sd.2.takeWhile Char.isDigit
        if ds.isEmpty then ([], fr.2)
        else (e :: (sd.1 ++ ds), sd.2.dropWhile Char.isDigit)
      else ([], fr.2)
    | [] => ([], fr.2)
  if fr.1.isEmpty ∧ ex.1.isEmpty then
    (Json.int (if neg then -(digitsToNat intds : Int) else (digitsToNat intds : Int)), rest)
  else
    (Json.float (String.mk ((if neg then ['-'] else []) ++ intds ++ fr.1 ++ ex.1)), ex.2)

/-- Number scanner: `-?(0|[1-9][0-9]*)(\.[0-9]+)?([eE][+-]?[0-9]+)?`.  A
leading zero cannot be followed by more integer digits. -/
def jsonNumber (cs : List Char) : Option (Json × List Char) :=
  let sp : Bool × List Char := match cs with | '-' :: t => (true, t) | _ => (false, cs)
  match sp.2 with
  | '0' :: t => some (finishNum sp.1 ['0'] t)
  | c :: t =>
    if c.isDigit then
      some (finishNum sp.1 (c :: t.takeWhile Char.isDigit) (t.dropWhile Char.isDigit))
    else none
  | [] => none

mutual
def jsonValue : Nat → List Char → Option (Json × List Char)
  | 0, _ => none
  | fuel + 1, cs =>
    match cs with
    | '"' :: rest =>
      (jsonStringAux fuel [] rest).map (fun p => (Json.str p.1, p.2))
    | '{' :: rest =>
      (match skipJsonWs rest with
       | '}' :: r2 => some (Json.obj [], r2)
       | r1 => jsonMembers fuel [] r1)
    | '[' :: rest =>
      (match skipJsonWs rest with
       | ']' :: r2 => some (Json.arr [], r2)
       | r1 => jsonElems fuel [] r1)
    | 't' :: 'r' :: 'u' :: 'e' :: rest => some (Json.bool true, rest)
    | 'f' :: 'a' :: 'l' :: 's' :: 'e' :: rest => some (Json.bool false, rest)
    | 'n' :: 'u' :: 'l' :: 'l' :: rest => some (Json.null, rest)
    | 'N' :: 'a' :: 'N' :: rest => some (Json.float "NaN", rest)
    | 'I' :: 'n' :: 'f' :: 'i' :: 'n' :: 'i' :: 't' :: 'y' :: rest =>
      some (Json.float "Infinity", rest)
    | '-' :: 'I' :: 'n' :: 'f' :: 'i' :: 'n' :: 'i' :: 't' :: 'y' :: rest =>
      some (Json.float "-Infinity", rest)
    | _ => jsonNumber cs

def jsonMembers : Nat → List (String × Json) → List Char → Option (Json × List Char)
  | 0, _, _ => none
  | fuel + 1, acc, cs =>
    match cs with
    | '"' :: rest =>
      match jsonStringAux fuel [] rest with
      | none => none
      | some (k, r1) =>
        match skipJsonWs r1 with
        | ':' :: r3 =>
          match jsonValue fuel (skipJsonWs r3) with
          | none => none
          | some (v, r4) =>
            let acc' := updateAssoc acc k v
            match skipJsonWs r4 with
            | ',' :: r6 => jsonMembers fuel acc' (skipJsonWs r6)
            | '}' :: r6 => some (Json.obj acc', r6)
            | _ => none
        | _ => none
    | _ => none

def jsonElems : Nat → List Json → List Char → Option (Json × List Char)
  | 0, _, _ => none
  | fuel + 1, acc, cs =>
    match jsonValue fuel cs with
    | none => none
    | some (v, r1) =>
      match skipJsonWs r1 with
      | ',' :: r2 => jsonElems fuel (acc ++ [v]) (skipJsonWs r2)
      | ']' :: r2 => some (Json.arr (acc ++ [v]), r2)
      | _ => none
end

/-- `json.loads(s)`: leading and trailing whitespace is allowed, anything
else after the value is "Extra data". -/
def jsonLoads (s : String) : Option Json :=
  match jsonValue (s.length + 1) (skipJsonWs s.data) with
  | some (v, rest) => if (skipJsonWs rest).isEmpty then some v else none
  | none => none

/-! ## `urllib.parse`: `urlparse` and `parse_qs` -/

def schemeChar (c : Char) : Bool := c.isAlphanum ∨ c = '+' ∨ c = '-' ∨ c = '.'

structure UrlParts where
  scheme : String
  netloc : String
  path : String
  params : String
  query : String
  fragment : String

/-- `urllib.parse.urlsplit`.  Current CPython first strips leading/trailing
C0-control-or-space characters and removes embedded tab/CR/LF; then: an
initial `letter(scheme chars)*:` is the (lowercased) scheme, `//…` up to the
first of `/?#` is the netloc (raising `ValueError` when exactly one of `[`
`]` occurs in it), `#` splits off the fragment, and `?` splits off the
query. -/
def urlsplit (url : String) : Except String UrlParts :=
  let cs1 := ((url.data.dropWhile (fun c => c.toNat ≤ 32)).reverse.dropWhile
    (fun c => c.toNat ≤ 32)).reverse
  let cs := cs1.filter (fun c => !(c = '\t' ∨ c = '\r' ∨ c = '\n'))
  let sp : String × List Char :=
    match breakOnChar ':' cs with
    | some (before, after) =>
      if before ≠ [] ∧ (before.headD ' ').isAlpha ∧ before.all schemeChar then
        (pyLower (String.mk before), after)
      else ("", cs)
    | none => ("", cs)
  let np : Except String (List Char × List Char) :=
    match sp.2 with
    | '/' :: '/' :: r =>
      let netloc := r.takeWhile (fun c => !(c = '/' ∨ c = '?' ∨ c = '#'))
      let r2 := r.dropWhile (fun c => !(c = '/' ∨ c = '?' ∨ c = '#'))
      if (netloc.elem '[') != (netloc.elem ']') then Except.error "Invalid IPv6 URL"
      else Except.ok (netloc, r2)
    | r => Except.ok ([], r)
  match np with
  | Except.error e => Except.error e
  | Except.ok (netloc, r2) =>
    let fs : List Char × List Char :=
      match breakOnChar '#' r2 with
      | some p => p
      | none => (r2, [])
    let qs : List Char × List Char :=
      match breakOnChar '?' fs.1 with
      | some p => p
      | none => (fs.1, [])
    Except.ok { scheme := sp.1, netloc := String.mk netloc, path := String.mk qs.1,
                params := "", query := String.mk qs.2, fragment := String.mk fs.2 }

def usesParams : List String :=
  ["", "ftp", "hdl", "prospero", "http", "imap", "https", "shttp", "rtsp",
   "rtspu", "sip", "sips", "mms", "sftp", "tel"]

/-- `_splitparams`: split the path at the first `;` at or after the last
slash (anywhere, when there is no slash). -/
def splitparams (path : List Char) : List Char × List Char :=
  if path.elem '/' then
    let k := path.length - 1 - List.findIdx (fun c => c = '/') path.reverse
    match breakOnChar ';' (path.drop k) with
    | some p => (path.take k ++ p.1, p.2)
    | none => (path, [])
  else
    match breakOnChar ';' path with
    | some p => p
    | none => (path, [])

/-- `urllib.parse.urlparse`: `urlsplit` plus the params split for schemes
that use them. -/
def urlparse (url : String) : Except String UrlParts :=
  match urlsplit url with
  | Except.error e => Except.error e
  | Except.ok up =>
    if up.scheme ∈ usesParams ∧ up.path.data.elem ';' then
      let pr := splitparams up.path.data
      Except.ok { up with path := String.mk pr.1, params := String.mk pr.2 }
    else Except.ok up

/-- `urllib.parse.unquote_plus` as used by `parse_qsl`: `+` becomes a space
and `%XX` escapes are decoded (an invalid escape is left verbatim).  Each
decoded byte becomes one character; multi-byte UTF-8 escape sequences are
simplified to one character per byte. -/
def percentDecode : List Char → List Char
  | [] => []
  | '%' :: h1 :: h2 :: rest =>
    (match hexVal h1, hexVal h2 with
     | some a, some b => Char.ofNat (16 * a + b) :: percentDecode rest
     | _, _ => '%' :: percentDecode (h1 :: h2 :: rest))
  | c :: rest => c :: percentDecode rest

def unquote_plus (s : String) : String :=
  String.mk (percentDecode (s.data.map (fun c => if c = '+' then ' ' else c)))

/-- `urllib.parse.parse_qsl` with default arguments: split on `&`, drop
empty fields, drop fields with no `=` and fields with an empty value. -/
def parse_qsl (qs : String) : List (String × String) :=
  (splitOnChar '&' qs).foldl
    (fun acc nv =>
      if nv = "" then acc
      else
        match splitOnce '=' nv with
        | none => acc
        | some (n, v) => if v = "" then acc else acc ++ [(unquote_plus n, unquote_plus v)])
    []

/-- `urllib.parse.parse_qs`: group `parse_qsl` pairs into a dict of value
lists, first-seen key order. -/
def parse_qs (qs : String) : List (String × List String) :=
  (parse_qsl qs).foldl
    (fun acc kv =>
      match assocLookup acc kv.1 with
      | some vs => updateAssoc acc kv.1 (vs ++ [kv.2])
      | none => acc ++ [(kv.1, [kv.2])])
    []

/-! ## `parse_curl` -/

/-- The normalized request record `details`.  Python initializes `body` to
`None`, represented as `Json.null`. -/
structure Details where
  method : String
  url : Option String
  headers : List (String × String)
  body : Json

/-- Exceptions of the embedded code, plus the `"Input must be a list"`
client-error response of the `/generate_openapi` route. -/
inductive PyErr where
  | valueError : String → PyErr
  | typeError : PyErr
  | attrError : PyErr
  | invalidInput : PyErr

def initDetails : Details := { method := "GET", url := none, headers := [], body := Json.null }

def isObjB : Json → Bool
  | Json.obj _ => true
  | _ => false

/-- The token-cursor loop of `parse_curl` (lines 13-43).  Each recognized
flag requires `i + 1 < len(command_parts)`; a trailing flag therefore falls
through every branch and is skipped.  In the `-F` branch Python runs
`details['body'] = details.get('body', {})` first — since the key is always
present this returns the current value (initially `None`), the `{}` default
never applies, and the following item assignment on a non-dict raises
`TypeError`. -/
def parseLoop : List String → Details → Except PyErr Details
  | [], d => Except.ok d
  | [p], d =>
    if pyStartsWith p "http" then Except.ok { d with url := some p } else Except.ok d
  | p :: a :: rest, d =>
    if p = "-X" ∨ p = "--request" then
      parseLoop rest { d with method := pyUpper a }
    else if p = "-H" ∨ p = "--header" then
      match splitOnce ':' a with
      | some kv => parseLoop rest { d with headers := updateAssoc d.headers (pyStrip kv.1) (pyStrip kv.2) }
      | none => parseLoop rest d
    else if p = "-d" ∨ p = "--data" ∨ p = "--data-raw" ∨ p = "--data-binary" then
      parseLoop rest { d with body := match jsonLoads a with | some j => j | none => Json.str a }
    else if p = "-F" ∨ p = "--form" then
      match splitOnce '=' a with
      | some kv =>
        match d.body with
        | Json.obj kvs =>
          parseLoop rest { d with body := Json.obj (updateAssoc kvs kv.1 (Json.str kv.2)) }
        | _ => Except.error PyErr.typeError
      | none => parseLoop rest d
    else if pyStartsWith p "http" then
      parseLoop (a :: rest) { d with url := some p }
    else
      parseLoop (a :: rest) d

/-- `parse_curl`: tokenize (propagating the tokenizer's `ValueError`), then
run the cursor loop on the default record. -/
def parse_curl (curl_command : String) : Except PyErr Details :=
  match shlexSplit curl_command with
  | Except.error msg => Except.error (PyErr.valueError msg)
  | Except.ok parts => parseLoop parts initDetails

/-! ## `infer_json_schema`

The Python branch order is `dict`, `list`, `str`, `int`, `float`, `bool`,
else.  Because `bool` is a subclass of `int` in Python, `isinstance(data,
int)` is true for booleans, so the `int` branch fires first and the `bool`
branch is dead code: a boolean infers as `{"type": "integer"}`. -/

mutual
def infer_json_schema : Json → Json
  | Json.obj l => Json.obj [("type", Json.str "object"), ("properties", Json.obj (inferProps l))]
  | Json.arr [] => Json.obj [("type", Json.str "array"), ("items", Json.obj [])]
  | Json.arr (x :: _) => Json.obj [("type", Json.str "array"), ("items", infer_json_schema x)]
  | Json.str _ => Json.obj [("type", Json.str "string")]
  | Json.int _ => Json.obj [("type", Json.str "integer")]
  | Json.bool _ => Json.obj [("type", Json.str "integer")]
  | Json.float _ => Json.obj [("type", Json.str "number")]
  | Json.null => Json.obj [("type", Json.str "object")]

def inferProps : List (String × Json) → List (String × Json)
  | [] => []
  | (k, v) :: t => (k, infer_json_schema v) :: inferProps t
end

/-! ## `generate_openapi_json`

The output document.  The constant members (`openapi`, `info`, and every
operation's fixed `responses` entry) carry no information and are omitted;
`servers` keeps the url strings of the `{"url": …}` entries. -/

structure Param where
  name : Json
  inLoc : String
  required : Bool
  exampleVal : Json

structure RequestBody where
  required : Bool
  contentType : String
  schema : Json

structure Operation where
  summary : String
  operationId : String
  servers : List String
  parameters : List Param
  security : Option Json
  requestBody : Option RequestBody

structure ApiDoc where
  servers : List String
  paths : List (String × List (String × Operation))
  schemas : List (String × Json)
  securitySchemes : List (String × Json)

def emptyApiDoc : ApiDoc :=
  { servers := [], paths := [], schemas := [], securitySchemes := [] }

/-- `path = url_parts.path or "/"`. -/
def pathOf (up : UrlParts) : String := if up.path = "" then "/" else up.path

def serverUrlOf (up : UrlParts) : String := up.scheme ++ "://" ++ up.netloc

/-- `path.replace('/', '_').strip('_') or 'root'`. -/
def opIdPathPart (pathStr : String) : String :=
  let s := pyStripChar '_' (replaceChar '/' '_' pathStr)
  if s = "" then "root" else s

/-- `operation_id = f"{method}_{…}_{i}"` (method already lowercased). -/
def opIdOf (methodLower pathStr : String) (i : Nat) : String :=
  methodLower ++ "_" ++ opIdPathPart pathStr ++ "_" ++ decimalStr i

def bearerSecurity : Json := Json.arr [Json.obj [("BearerAuth", Json.arr [])]]
def basicSecurity : Json := Json.arr [Json.obj [("BasicAuth", Json.arr [])]]
def bearerScheme : Json := Json.obj [("type", Json.str "http"), ("scheme", Json.str "bearer")]
def basicScheme : Json := Json.obj [("type", Json.str "http"), ("scheme", Json.str "basic")]

/-- Lines 117-124: the `Authorization` lookup is an exact-key dict `get`;
only the value prefix comparison is case-insensitive. -/
def securityOf (headers : List (String × String)) : Option Json :=
  match assocLookup headers "Authorization" with
  | some v =>
    if pyStartsWith (pyLower v) "bearer " then some bearerSecurity
    else if pyStartsWith (pyLower v) "basic " then some basicSecurity
    else none
  | none => none

/-- Line 129: `parsed_data['headers'].get('Content-Type', 'application/json')`
— again an exact-key lookup. -/
def contentTypeOf (headers : List (String × String)) : String :=
  (assocLookup headers "Content-Type").getD "application/json"

/-- Lines 134-139: the content schema is a `$ref` to the registered schema
when the content type is exactly `application/json` and the body is a dict,
and the generic string schema otherwise. -/
def bodySchemaOf (d : Details) (opId : String) : Json :=
  if contentTypeOf d.headers = "application/json" ∧ isObjB d.body then
    Json.obj [("$ref", Json.str ("#/components/schemas/Schema_" ++ opId))]
  else Json.obj [("type", Json.str "string")]

/-- The `path_details` operation object assembled for one record (lines
90-139), a pure function of the enumerate index, the parsed record and the
url parts. -/
def mk_path_details (i : Nat) (d : Details) (up : UrlParts) : Operation :=
  let path := pathOf up
  let opId := opIdOf (pyLower d.method) path i
  let queryParams : List Param := (parse_qs up.query).map (fun kv =>
    { name := Json.str kv.1, inLoc := "query", required := false,
      exampleVal := Json.str (kv.2.headD "") })
  let headerParams : List Param := d.headers.filterMap (fun kv =>
    if pyLower kv.1 = "content-type" ∨ pyLower kv.1 = "authorization" then none
    else some { name := Json.str kv.1, inLoc := "header", required := false,
                exampleVal := Json.str kv.2 })
  let rb : Option RequestBody :=
    if pyTruthy d.body then
      some { required := true, contentType := contentTypeOf d.headers,
             schema := bodySchemaOf d opId }
    else none
  { summary := d.method ++ " " ++ path
    operationId := opId
    servers := [serverUrlOf up]
    parameters := queryParams ++ headerParams
    security := securityOf d.headers
    requestBody := rb }

/-- The document updates performed for one record that reached the end of
the loop body: server dedup, security-scheme and schema registration, and
the `paths[path][method] = path_details` insertion. -/
def apply_record (spec : ApiDoc) (i : Nat) (d : Details) (up : UrlParts) : ApiDoc :=
  let server_url := serverUrlOf up
  let op := mk_path_details i d up
  let secSchemes :=
    match assocLookup d.headers "Authorization" with
    | some v =>
      if pyStartsWith (pyLower v) "bearer " then
        updateAssoc spec.securitySchemes "BearerAuth" bearerScheme
      else if pyStartsWith (pyLower v) "basic " then
        updateAssoc spec.securitySchemes "BasicAuth" basicScheme
      else spec.securitySchemes
    | none => spec.securitySchemes
  let schemas :=
    if pyTruthy d.body then
      if contentTypeOf d.headers = "application/json" ∧ isObjB d.body then
        updateAssoc spec.schemas ("Schema_" ++ op.operationId) (infer_json_schema d.body)
      else spec.schemas
    else spec.schemas
  { servers := if server_url ∈ spec.servers then spec.servers else spec.servers ++ [server_url]
    paths := updateAssoc spec.paths (pathOf up)
      (updateAssoc ((assocLookup spec.paths (pathOf up)).getD []) (pyLower d.method) op)
    schemas := schemas
    securitySchemes := secSchemes }

/-- One iteration of the `for i, req in enumerate(requests)` loop: blank
lines are skipped, a tokenizer or `-F` exception propagates, records without
a url are skipped, and `urlparse`'s `ValueError` propagates. -/
def process_record (spec : ApiDoc) (i : Nat) (req : String) : Except PyErr ApiDoc :=
  if pyStrip req = "" then Except.ok spec
  else
    match parse_curl req with
    | Except.error e => Except.error e
    | Except.ok d =>
      match d.url with
      | none => Except.ok spec
      | some u =>
        if u = "" then Except.ok spec
        else
          match urlparse u with
          | Except.error msg => Except.error (PyErr.valueError msg)
          | Except.ok up => Except.ok (apply_record spec i d up)

def genLoop (spec : ApiDoc) (i : Nat) : List String → Except PyErr ApiDoc
  | [] => Except.ok spec
  | r :: rs =>
    match process_record spec i r with
    | Except.error e => Except.error e
    | Except.ok s' => genLoop s' (i + 1) rs

def generate_openapi_json (requests : List String) : Except PyErr ApiDoc :=
  genLoop emptyApiDoc 0 requests

def allStrings : List Json → Option (List String)
  | [] => some []
  | Json.str s :: t => (allStrings t).map (fun l => s :: l)
  | _ => none

/-- The `/generate_openapi` route body (`generate`): a non-list payload is
answered with the `"Input must be a list"` client error, otherwise the list
is handed to `generate_openapi_json`.  A list element that is not a string
raises `AttributeError` at its `req.strip()`; the element check is hoisted
here, which can only change which exception surfaces for inputs that fail
anyway. -/
def generate (requests_list : Json) : Except PyErr ApiDoc :=
  match requests_list with
  | Json.arr l =>
    match allStrings l with
    | some ss => generate_openapi_json ss
    | none => Except.error PyErr.attrError
  | _ => Except.error PyErr.invalidInput

/-! Reference functions used to state the aggregation claims. -/

/-- Lookup of `paths[p][m]` in the nested insertion-ordered mapping. -/
def look2 {β : Type} (paths : List (String × List (String × β))) (p m : String) : Option β :=
  match assocLookup paths p with
  | none => none
  | some inner => assocLookup inner m

/-- The (path, method, operation) slot a record writes, `none` when the
record is skipped or raises. -/
def recSlot (i : Nat) (r : String) : Option (String × String × Operation) :=
  if pyStrip r = "" then none
  else
    match parse_curl r with
    | Except.error _ => none
    | Except.ok d =>
      match d.url with
      | none => none
      | some u =>
        if u = "" then none
        else
          match urlparse u with
          | Except.error _ => none
          | Except.ok up => some (pathOf up, pyLower d.method, mk_path_details i d up)

/-- Reference reading of last-write-wins: the operation of the last record
(scanning from index `i`) whose slot is `(p, m)`. -/
def lastSlotFrom (p m : String) : Nat → List String → Option Operation
  | _, [] => none
  | i, r :: rs =>
    match lastSlotFrom p m (i + 1) rs with
    | some op => some op
    | none =>
      match recSlot i r with
      | some s => if s.1 = p ∧ s.2.1 = m then some s.2.2 else none
      | none => none

/-- A record neither raises in `parse_curl` nor in `urlparse`: exactly the
records the batch loop survives. -/
def record_ok (r : String) : Bool :=
  (pyStrip r == "") ||
    match parse_curl r with
    | Except.error _ => false
    | Except.ok d =>
      match d.url with
      | none => true
      | some u =>
        (u == "") ||
          match urlparse u with
          | Except.error _ => false
          | Except.ok _ => true

/-! ## `postman_to_openapi`

The collection converter route.  Its whole body runs inside `try…except
Exception`, so any exception becomes the 500 "Failed to convert Postman"
response; an initially falsy collection is the 400 "Invalid or empty Postman
collection" response. -/

/-! Python `str(x)` and `repr(x)` of a JSON-like value, used only for a
non-dict `url` entry (`raw_url = str(url_info)`).  Container rendering
follows `repr` (strings quoted); escaping inside reprs is not reproduced. -/
mutual
def pyStr : Json → String
  | Json.str s => s
  | v => pyRepr v

def pyRepr : Json → String
  | Json.null => "None"
  | Json.bool b => if b then "True" else "False"
  | Json.int n => if n < 0 then "-" ++ decimalStr n.natAbs else decimalStr n.natAbs
  | Json.float lit => lit
  | Json.str s => String.mk [Char.ofNat 39] ++ s ++ String.mk [Char.ofNat 39]
  | Json.arr l => "[" ++ String.intercalate ", " (pyReprElems l) ++ "]"
  | Json.obj l => "\x7b" ++ String.intercalate ", " (pyReprPairs l) ++ "\x7d"

def pyReprElems : List Json → List String
  | [] => []
  | x :: t => pyRepr x :: pyReprElems t

def pyReprPairs : List (String × Json) → List String
  | [] => []
  | (k, v) :: t =>
    (String.mk [Char.ofNat 39] ++ k ++ String.mk [Char.ofNat 39] ++ ": " ++ pyRepr v)
      :: pyReprPairs t
end

inductive PmErr where
  | badCollection : PmErr
  | convFailed : PmErr

structure POp where
  summary : Json
  parameters : List Param
  requestBody : Option RequestBody

structure PDoc where
  title : Json
  version : Json
  servers : List String
  paths : List (String × List (String × POp))
  schemas : List (String × Json)

/-- `v.get(k)` on a dict, `none` when missing. -/
def pyGet (v : Json) (k : String) : Option Json :=
  match v with
  | Json.obj l => assocLookup l k
  | _ => none

/-- `v.get(k, dflt)`; `AttributeError` when `v` is not a dict. -/
def pyGetD (v : Json) (k : String) (dflt : Json) : Except PyErr Json :=
  match v with
  | Json.obj l => Except.ok ((assocLookup l k).getD dflt)
  | _ => Except.error PyErr.attrError

/-- One query-parameter entry (lines 237-243): `required` is `not
q.get("disabled", False)`. -/
def mk_postman_query_param (q : Json) : Except PyErr Param :=
  match q with
  | Json.obj l =>
    Except.ok { name := (assocLookup l "key").getD (Json.str ""),
                inLoc := "query",
                required := !(pyTruthy ((assocLookup l "disabled").getD (Json.bool false))),
                exampleVal := (assocLookup l "value").getD (Json.str "") }
  | _ => Except.error PyErr.attrError

/-- One header-parameter entry (lines 247-255): skipped when the key is
falsy or (case-insensitively) `Content-Type`/`Authorization`; otherwise
`required` is the constant `False`. -/
def mk_postman_header_param (h : Json) : Except PyErr (Option Param) :=
  match h with
  | Json.obj l =>
    match (assocLookup l "key").getD Json.null with
    | Json.str s =>
      if s = "" then Except.ok none
      else if pyLower s = "content-type" ∨ pyLower s = "authorization" then Except.ok none
      else Except.ok (some { name := Json.str s, inLoc := "header", required := false,
                             exampleVal := (assocLookup l "value").getD (Json.str "") })
    | Json.null => Except.ok none
    | other => if pyTruthy other then Except.error PyErr.attrError else Except.ok none
  | _ => Except.error PyErr.attrError

/-- Iterate the query entries (only reached when truthy).  Iterating a dict
yields its string keys and a string yields characters; either way `q.get`
then raises `AttributeError`; non-iterables raise `TypeError`. -/
def pmQueryParams (query : Json) : Except PyErr (List Param) :=
  match query with
  | Json.arr l => l.mapM mk_postman_query_param
  | Json.obj _ => Except.error PyErr.attrError
  | Json.str _ => Except.error PyErr.attrError
  | _ => Except.error PyErr.typeError

/-- Iterate the header entries (empty iterables iterate zero times). -/
def pmHeaderParams (headers : Json) : Except PyErr (List Param) :=
  match headers with
  | Json.arr l => (l.mapM mk_postman_header_param).map (fun os => os.filterMap id)
  | Json.obj [] => Except.ok []
  | Json.obj _ => Except.error PyErr.attrError
  | Json.str "" => Except.ok []
  | Json.str _ => Except.error PyErr.attrError
  | _ => Except.error PyErr.typeError

/-- Lines 208-215: a dict-shaped `url` yields `raw`, `"/" + "/".join(path)`
and `query`; anything else stringifies to `raw_url` with path `/` and no
query.  `"/".join` over a string joins its characters. -/
def pmUrlInfo (url_info : Json) : Except PyErr (Json × String × Json) :=
  match url_info with
  | Json.obj l =>
    let raw := (assocLookup l "raw").getD (Json.str "")
    let query := (assocLookup l "query").getD (Json.arr [])
    match (assocLookup l "path").getD (Json.arr []) with
    | Json.arr xs =>
      match allStrings xs with
      | some ss => Except.ok (raw, "/" ++ String.intercalate "/" ss, query)
      | none => Except.error PyErr.typeError
    | Json.str s =>
      Except.ok (raw, "/" ++ String.intercalate "/" (s.data.map (fun c => String.mk [c])), query)
    | _ => Except.error PyErr.typeError
  | _ => Except.ok (Json.str (pyStr url_info), "/", Json.arr [])

/-- Lines 258-277: a truthy body in `raw` mode, with a string `raw` field
that decodes as JSON, registers a schema and references it; any failure in
the `try` (bad JSON, or `json.loads` on a non-string) degrades to the
`text/plain` string schema. -/
def pmRequestBody (body : Json) (methodLower : String) (idx : Nat)
    (schemas : List (String × Json)) : Except PyErr (Option RequestBody × List (String × Json)) :=
  if !pyTruthy body then Except.ok (none, schemas)
  else
    match body with
    | Json.obj l =>
      let isRaw := match (assocLookup l "mode").getD Json.null with
        | Json.str m => m == "raw"
        | _ => false
      if isRaw then
        let textPlain : Option RequestBody :=
          some { required := true, contentType := "text/plain",
                 schema := Json.obj [("type", Json.str "string")] }
        match (assocLookup l "raw").getD (Json.str "") with
        | Json.str s =>
          match jsonLoads s with
          | some pj =>
            let name := "Schema_" ++ methodLower ++ "_" ++ decimalStr idx
            Except.ok
              (some { required := true, contentType := "application/json",
                      schema := Json.obj [("$ref",
                        Json.str ("#/components/schemas/" ++ name))] },
               updateAssoc schemas name (infer_json_schema pj))
          | none => Except.ok (textPlain, schemas)
        | _ => Except.ok (textPlain, schemas)
      else Except.ok (none, schemas)
    | _ => Except.error PyErr.attrError

/-- One iteration of the `for idx, item in enumerate(collection["item"])`
loop (lines 202-279). -/
def processItem (spec : PDoc) (idx : Nat) (item : Json) : Except PyErr PDoc :=
  match pyGetD item "request" (Json.obj []) with
  | Except.error e => Except.error e
  | Except.ok request_data =>
    if !pyTruthy request_data then Except.ok spec
    else
      match pyGetD request_data "url" (Json.obj []) with
      | Except.error e => Except.error e
      | Except.ok url_info =>
        match pmUrlInfo url_info with
        | Except.error e => Except.error e
        | Except.ok (raw_url, path, query_params) =>
          match pyGetD request_data "method" (Json.str "GET") with
          | Except.error e => Except.error e
          | Except.ok mj =>
            match mj with
            | Json.str mstr =>
              let methodLower := pyLower mstr
              match pyGetD item "name" (Json.str ("Request " ++ decimalStr (idx + 1))) with
              | Except.error e => Except.error e
              | Except.ok summary =>
                let serversE : Except PyErr (List String) :=
                  if pyTruthy raw_url then
                    match raw_url with
                    | Json.str rs =>
                      match urlparse rs with
                      | Except.error msg => Except.error (PyErr.valueError msg)
                      | Except.ok up =>
                        let server_url := serverUrlOf up
                        Except.ok
                          (if server_url ≠ "" ∧ server_url ∉ spec.servers then
                             spec.servers ++ [server_url]
                           else spec.servers)
                    | _ => Except.error PyErr.typeError
                  else Except.ok spec.servers
                match serversE with
                | Except.error e => Except.error e
                | Except.ok servers =>
                  match (if pyTruthy query_params then pmQueryParams query_params
                         else Except.ok []) with
                  | Except.error e => Except.error e
                  | Except.ok qps =>
                    match pyGetD request_data "header" (Json.arr []) with
                    | Except.error e => Except.error e
                    | Except.ok headersJ =>
                      match pmHeaderParams headersJ with
                      | Except.error e => Except.error e
                      | Except.ok hps =>
                        match pyGetD request_data "body" (Json.obj []) with
                        | Except.error e => Except.error e
                        | Except.ok bodyJ =>
                          match pmRequestBody bodyJ methodLower idx spec.schemas with
                          | Except.error e => Except.error e
                          | Except.ok (rb, schemas) =>
                            Except.ok { spec with
                              servers := servers
                              schemas := schemas
                              paths := updateAssoc spec.paths path
                                (updateAssoc ((assocLookup spec.paths path).getD [])
                                  methodLower
                                  { summary := summary, parameters := qps ++ hps,
                                    requestBody := rb }) }
            | _ => Except.error PyErr.attrError

def pmLoop (spec : PDoc) (idx : Nat) : List Json → Except PyErr PDoc
  | [] => Except.ok spec
  | it :: t =>
    match processItem spec idx it with
    | Except.error e => Except.error e
    | Except.ok s' => pmLoop s' (idx + 1) t

/-- The `/postman_to_openapi` route body. -/
def postman_to_openapi (collection : Json) : Except PmErr PDoc :=
  if !pyTruthy collection then Except.error PmErr.badCollection
  else
    let inner : Except PyErr PDoc :=
      match pyGetD collection "info" (Json.obj []) with
      | Except.error e => Except.error e
      | Except.ok info =>
        match pyGetD info "name" (Json.str "Converted Postman Collection") with
        | Except.error e => Except.error e
        | Except.ok title =>
          match pyGetD info "version" (Json.str "1.0.0") with
          | Except.error e => Except.error e
          | Except.ok version =>
            let base : PDoc :=
              { title := title, version := version, servers := [], paths := [], schemas := [] }
            match pyGetD collection "item" (Json.arr []) with
            | Except.error e => Except.error e
            | Except.ok itemsJ =>
              match itemsJ with
              | Json.arr items => pmLoop base 0 items
              | Json.obj [] => Except.ok base
              | Json.str "" => Except.ok base
              | Json.obj _ => Except.error PyErr.attrError
              | Json.str _ => Except.error PyErr.attrError
              | _ => Except.error PyErr.typeError
    match inner with
    | Except.error _ => Except.error PmErr.convFailed
    | Except.ok doc => Except.ok doc

/-! ## Support definitions for the statements below -/

/-- Value of a most-significant-first decimal digit list. -/
def decVal (l : List Char) : Nat := l.foldl (fun a c => a * 10 + (c.toNat - 48)) 0

/-- Both levels of the nested paths mapping have pairwise-distinct keys. -/
def pathsNodup {β : Type} (paths : List (String × List (String × β))) : Prop :=
  (paths.map Prod.fst).Nodup ∧ ∀ e ∈ paths, ((e.2).map Prod.fst).Nodup

/-- The argument-taking flags recognized by the extractor. -/
def argFlags : List String :=
  ["-X", "--request", "-H", "--header", "-d", "--data", "--data-raw",
   "--data-binary", "-F", "--form"]

/-- Concrete record and url parts exercising the truthy-body branch. -/
def c4d : Details :=
  { method := "POST", url := some "https://w4.example/p",
    headers := [("X-Trace", "z")], body := Json.str "payload" }

def c4up : UrlParts :=
  { scheme := "https", netloc := "w4.example", path := "/p", params := "",
    query := "", fragment := "" }

/-- Concrete record with an exact-case `Authorization: Bearer` header. -/
def c6d : Details :=
  { method := "GET", url := some "https://w6.example/q",
    headers := [("Authorization", "Bearer abc")], body := Json.null }

def c6up : UrlParts :=
  { scheme := "https", netloc := "w6.example", path := "/q", params := "",
    query := "", fragment := "" }

/-- A batch with two records colliding on the same path and method. -/
def c7reqs : List String := ["curl https://w7.example/a", "curl https://w7.example/a"]

def c7doc : ApiDoc := (generate_openapi_json c7reqs).toOption.getD emptyApiDoc

/-- A collection whose only item has one enabled header entry. -/
def c9collection : Json :=
  Json.obj [("item", Json.arr [Json.obj [("name", Json.str "r"),
    ("request", Json.obj [("method", Json.str "GET"),
      ("header", Json.arr [Json.obj [("key", Json.str "X-Token"),
        ("value", Json.str "t")]])])]])]

/-- The query-parameter entry built from an empty (hence enabled) query
object. -/
def c9q : Param :=
  { name := Json.str "", inLoc := "query", required := true, exampleVal := Json.str "" }

/-! ## Lemmas: decimal strings -/

theorem digitChar_isDigit (n : Nat) : (digitChar n).isDigit = true := by
  unfold digitChar
  split <;> decide

theorem digitChar_toNat (n : Nat) (h : n < 10) : (digitChar n).toNat - 48 = n := by
  interval_cases n <;> rfl

theorem decVal_append_digit (l : List Char) (c : Char) :
    decVal (l ++ [c]) = decVal l * 10 + (c.toNat - 48) := by
  unfold decVal
  rw [List.foldl_append]
  rfl

theorem decDigitsAux_spec :
    ∀ fuel n, n < fuel →
      decDigitsAux fuel n ≠ [] ∧ (∀ c ∈ decDigitsAux fuel n, c.isDigit = true) ∧
        decVal (decDigitsAux fuel n) = n := by
  intro fuel
  induction fuel with
  | zero => intro n h; omega
  | succ f ih =>
    intro n h
    unfold decDigitsAux
    by_cases h10 : n < 10
    · simp only [if_pos h10]
      refine ⟨by simp, ?_, ?_⟩
      · intro c hc
        simp only [List.mem_singleton] at hc
        subst hc
        exact digitChar_isDigit n
      · show decVal ([] ++ [digitChar n]) = n
        rw [decVal_append_digit]
        simp [decVal, digitChar_toNat n h10]
    · simp only [if_neg h10]
      have hdiv : n / 10 < f := by
        have h1 : n / 10 < n := Nat.div_lt_self (by omega) (by omega)
        omega
      obtain ⟨hne, hdig, hval⟩ := ih (n / 10) hdiv
      refine ⟨by simp, ?_, ?_⟩
      · intro c hc
        rcases List.mem_append.mp hc with hc | hc
        · exact hdig c hc
        · simp only [List.mem_singleton] at hc
          subst hc
          exact digitChar_isDigit _
      · rw [decVal_append_digit, hval, digitChar_toNat _ (Nat.mod_lt _ (by omega))]
        omega

theorem decimalStr_spec (n : Nat) :
    (decimalStr n).data ≠ [] ∧ (∀ c ∈ (decimalStr n).data, c.isDigit = true) ∧
      decVal (decimalStr n).data = n := by
  have h := decDigitsAux_spec (n + 1) n (Nat.lt_succ_self n)
  simpa [decimalStr] using h

theorem str_data_append (s t : String) : (s ++ t).data = s.data ++ t.data := rfl

/-- Two decimal suffixes after an underscore separator agree (scanning from
the right, a digit can never be mistaken for the `_` separator). -/
theorem digits_underscore_rev_inj :
    ∀ e1 e2 t1 t2 : List Char, (∀ c ∈ e1, c.isDigit = true) → (∀ c ∈ e2, c.isDigit = true) →
      e1 ++ '_' :: t1 = e2 ++ '_' :: t2 → e1 = e2 := by
  intro e1
  induction e1 with
  | nil =>
    intro e2 t1 t2 _ h2 heq
    cases e2 with
    | nil => rfl
    | cons c e2' =>
      exfalso
      simp only [List.nil_append, List.cons_append, List.cons.injEq] at heq
      have hd := h2 c (by simp)
      rw [← heq.1] at hd
      exact absurd hd (by decide)
  | cons c e1' ih =>
    intro e2 t1 t2 h1 h2 heq
    cases e2 with
    | nil =>
      exfalso
      simp only [List.cons_append, List.nil_append, List.cons.injEq] at heq
      have hd := h1 c (by simp)
      rw [heq.1] at hd
      exact absurd hd (by decide)
    | cons c2 e2' =>
      simp only [List.cons_append, List.cons.injEq] at heq
      have htail := ih e2' t1 t2 (fun x hx => h1 x (by simp [hx])) (fun x hx => h2 x (by simp [hx])) heq.2
      rw [heq.1, htail]

/-- The record index embedded at the end of an operation id determines
itself: equal ids force equal indices. -/
theorem underscore_decimal_inj {s1 s2 : String} {i1 i2 : Nat}
    (h : s1 ++ "_" ++ decimalStr i1 = s2 ++ "_" ++ decimalStr i2) : i1 = i2 := by
  have hd : s1.data ++ '_' :: (decimalStr i1).data = s2.data ++ '_' :: (decimalStr i2).data := by
    have h2 := congrArg String.data h
    simpa [str_data_append, List.append_assoc] using h2
  have hrev := congrArg List.reverse hd
  simp only [List.reverse_append, List.reverse_cons, List.append_assoc,
    List.singleton_append] at hrev
  have hdig1 : ∀ c ∈ (decimalStr i1).data.reverse, c.isDigit = true := by
    intro c hc
    exact (decimalStr_spec i1).2.1 c (List.mem_reverse.mp hc)
  have hdig2 : ∀ c ∈ (decimalStr i2).data.reverse, c.isDigit = true := by
    intro c hc
    exact (decimalStr_spec i2).2.1 c (List.mem_reverse.mp hc)
  have he := digits_underscore_rev_inj _ _ _ _ hdig1 hdig2 hrev
  have hdata : (decimalStr i1).data = (decimalStr i2).data := by
    have h3 := congrArg List.reverse he
    simpa using h3
  have hv1 := (decimalStr_spec i1).2.2
  have hv2 := (decimalStr_spec i2).2.2
  rw [hdata] at hv1
  omega

theorem opIdOf_stem (m p : String) (i : Nat) :
    opIdOf m p i = (m ++ "_" ++ opIdPathPart p) ++ "_" ++ decimalStr i := rfl

/-! ## Lemmas: association-list updates -/

theorem assocLookup_updateAssoc_self {α β : Type} [DecidableEq α]
    (l : List (α × β)) (k : α) (v : β) :
    assocLookup (updateAssoc l k v) k = some v := by
  induction l with
  | nil => simp [updateAssoc, assocLookup]
  | cons e t ih =>
    obtain ⟨k', v'⟩ := e
    by_cases hk : k' = k
    · subst hk; simp [updateAssoc, assocLookup]
    · simp [updateAssoc, hk, assocLookup, ih]

theorem assocLookup_updateAssoc_ne {α β : Type} [DecidableEq α]
    (l : List (α × β)) (k k₀ : α) (v : β) (hne : k₀ ≠ k) :
    assocLookup (updateAssoc l k v) k₀ = assocLookup l k₀ := by
  have hne2 : k ≠ k₀ := Ne.symm hne
  induction l with
  | nil => simp [updateAssoc, assocLookup, hne2]
  | cons e t ih =>
    obtain ⟨k', v'⟩ := e
    by_cases hk : k' = k
    · subst hk; simp [updateAssoc, assocLookup, hne2]
    · simp [updateAssoc, hk, assocLookup, ih]

theorem mem_updateAssoc {α β : Type} [DecidableEq α] {e : α × β} {l : List (α × β)}
    {k : α} {v : β} (hmem : e ∈ updateAssoc l k v) : e ∈ l ∨ e = (k, v) := by
  revert hmem
  induction l with
  | nil =>
    intro h
    simp only [updateAssoc, List.mem_singleton] at h
    exact Or.inr h
  | cons e' t ih =>
    obtain ⟨k', v'⟩ := e'
    intro h
    by_cases hk : k' = k
    · subst hk
      simp only [updateAssoc, if_true, eq_self_iff_true, List.mem_cons] at h
      rcases h with h | h
      · exact Or.inr h
      · exact Or.inl (List.mem_cons_of_mem _ h)
    · simp only [updateAssoc, if_neg hk, List.mem_cons] at h
      rcases h with h | h
      · exact Or.inl (by simp [h])
      · rcases ih h with h2 | h2
        · exact Or.inl (List.mem_cons_of_mem _ h2)
        · exact Or.inr h2

theorem map_fst_updateAssoc {α β : Type} [DecidableEq α] (l : List (α × β)) (k : α) (v : β) :
    (updateAssoc l k v).map Prod.fst =
      if k ∈ l.map Prod.fst then l.map Prod.fst else l.map Prod.fst ++ [k] := by
  induction l with
  | nil => simp [updateAssoc]
  | cons e t ih =>
    obtain ⟨k', v'⟩ := e
    by_cases hk : k' = k
    · subst hk; simp [updateAssoc]
    · have hk2 : ¬(k = k') := fun hh => hk hh.symm
      simp only [updateAssoc, if_neg hk, List.map_cons, List.mem_cons, ih]
      by_cases hmem : k ∈ t.map Prod.fst
      · simp [hmem, hk2]
      · simp [hmem, hk2]

theorem nodup_updateAssoc {α β : Type} [DecidableEq α] {l : List (α × β)} (k : α) (v : β)
    (h : (l.map Prod.fst).Nodup) : ((updateAssoc l k v).map Prod.fst).Nodup := by
  rw [map_fst_updateAssoc]
  split
  · exact h
  · next hmem =>
    exact h.append (List.nodup_singleton k)
      (by intro a ha hb; simp only [List.mem_singleton] at hb; subst hb; exact hmem ha)

theorem assocLookup_some_mem {α β : Type} [DecidableEq α] {l : List (α × β)} {k : α} {v : β}
    (h : assocLookup l k = some v) : (k, v) ∈ l := by
  induction l with
  | nil => simp [assocLookup] at h
  | cons e t ih =>
    obtain ⟨k', v'⟩ := e
    by_cases hk : k' = k
    · subst hk
      have hv : v' = v := by simpa [assocLookup] using h
      subst hv
      exact List.mem_cons_self _ _
    · simp only [assocLookup, if_neg hk] at h
      exact List.mem_cons_of_mem _ (ih h)

theorem look2_updateAssoc {β : Type} (paths : List (String × List (String × β)))
    (p₀ m₀ : String) (op : β) (p m : String) :
    look2 (updateAssoc paths p₀ (updateAssoc ((assocLookup paths p₀).getD []) m₀ op)) p m =
      if p₀ = p ∧ m₀ = m then some op else look2 paths p m := by
  by_cases hp : p₀ = p
  · subst hp
    by_cases hm : m₀ = m
    · subst hm
      simp [look2, assocLookup_updateAssoc_self]
    · have hne : m ≠ m₀ := fun hh => hm hh.symm
      simp only [look2, assocLookup_updateAssoc_self,
        assocLookup_updateAssoc_ne _ _ _ _ hne, hm, and_false, if_false]
      cases hl : assocLookup paths p₀ <;> simp [assocLookup]
  · have hne : p ≠ p₀ := fun hh => hp hh.symm
    simp only [look2, assocLookup_updateAssoc_ne _ _ _ _ hne, hp, false_and, if_false]

/-! ## Lemmas: the aggregation loop -/

theorem apply_record_paths (spec : ApiDoc) (i : Nat) (d : Details) (up : UrlParts) :
    (apply_record spec i d up).paths =
      updateAssoc spec.paths (pathOf up)
        (updateAssoc ((assocLookup spec.paths (pathOf up)).getD []) (pyLower d.method)
          (mk_path_details i d up)) := rfl

/-- Effect of one loop iteration on the nested paths mapping: a record that
writes slot `(p₀, m₀)` overwrites exactly that lookup and leaves every other
slot unchanged. -/
theorem process_record_paths (spec : ApiDoc) (i : Nat) (r : String) (spec' : ApiDoc)
    (hok : process_record spec i r = Except.ok spec') (p m : String) :
    look2 spec'.paths p m =
      match recSlot i r with
      | some s => if s.1 = p ∧ s.2.1 = m then some s.2.2 else look2 spec.paths p m
      | none => look2 spec.paths p m := by
  by_cases h0 : pyStrip r = ""
  · have hs : spec = spec' := by simpa [process_record, h0] using hok
    subst hs
    simp [recSlot, h0]
  · cases hpc : parse_curl r with
    | error e => simp [process_record, h0, hpc] at hok
    | ok d =>
      cases hurl : d.url with
      | none =>
        have hs : spec = spec' := by simpa [process_record, h0, hpc, hurl] using hok
        subst hs
        simp [recSlot, h0, hpc, hurl]
      | some u =>
        by_cases hu : u = ""
        · have hs : spec = spec' := by simpa [process_record, h0, hpc, hurl, hu] using hok
          subst hs
          simp [recSlot, h0, hpc, hurl, hu]
        · cases hup : urlparse u with
          | error msg => simp [process_record, h0, hpc, hurl, hu, hup] at hok
          | ok up =>
            have hs : apply_record spec i d up = spec' := by
              simpa [process_record, h0, hpc, hurl, hu, hup] using hok
            subst hs
            rw [apply_record_paths]
            simp only [recSlot, h0, if_neg h0, hpc, hurl, hu, hup]
            exact look2_updateAssoc spec.paths (pathOf up) (pyLower d.method)
              (mk_path_details i d up) p m

/-- One loop iteration succeeds exactly on surviving records. -/
theorem process_record_isOk (spec : ApiDoc) (i : Nat) (r : String) :
    (∃ s', process_record spec i r = Except.ok s') ↔ record_ok r = true := by
  by_cases h0 : pyStrip r = ""
  · simp [process_record, record_ok, h0]
  · cases hpc : parse_curl r with
    | error e => simp [process_record, record_ok, h0, hpc]
    | ok d =>
      cases hurl : d.url with
      | none => simp [process_record, record_ok, h0, hpc, hurl]
      | some u =>
        by_cases hu : u = ""
        · simp [process_record, record_ok, h0, hpc, hurl, hu]
        · cases hup : urlparse u with
          | error msg => simp [process_record, record_ok, h0, hpc, hurl, hu, hup]
          | ok up => simp [process_record, record_ok, h0, hpc, hurl, hu, hup]

theorem apply_record_pathsNodup (spec : ApiDoc) (i : Nat) (d : Details) (up : UrlParts)
    (h : pathsNodup spec.paths) : pathsNodup (apply_record spec i d up).paths := by
  rw [pathsNodup, apply_record_paths]
  constructor
  · exact nodup_updateAssoc _ _ h.1
  · intro e he
    rcases mem_updateAssoc he with he | he
    · exact h.2 e he
    · subst he
      cases hl : assocLookup spec.paths (pathOf up) with
      | none => simp [hl, updateAssoc]
      | some inner =>
        simp only [hl, Option.getD_some]
        exact nodup_updateAssoc _ _ (h.2 _ (assocLookup_some_mem hl))

theorem process_record_pathsNodup {spec spec' : ApiDoc} {i : Nat} {r : String}
    (h : pathsNodup spec.paths) (hok : process_record spec i r = Except.ok spec') :
    pathsNodup spec'.paths := by
  by_cases h0 : pyStrip r = ""
  · have hs : spec = spec' := by simpa [process_record, h0] using hok
    subst hs; exact h
  · cases hpc : parse_curl r with
    | error e => simp [process_record, h0, hpc] at hok
    | ok d =>
      cases hurl : d.url with
      | none =>
        have hs : spec = spec' := by simpa [process_record, h0, hpc, hurl] using hok
        subst hs; exact h
      | some u =>
        by_cases hu : u = ""
        · have hs : spec = spec' := by simpa [process_record, h0, hpc, hurl, hu] using hok
          subst hs; exact h
        · cases hup : urlparse u with
          | error msg => simp [process_record, h0, hpc, hurl, hu, hup] at hok
          | ok up =>
            have hs : apply_record spec i d up = spec' := by
              simpa [process_record, h0, hpc, hurl, hu, hup] using hok
            subst hs
            exact apply_record_pathsNodup spec i d up h

theorem genLoop_ok_iff :
    ∀ (rs : List String) (spec : ApiDoc) (i : Nat),
      (∃ doc, genLoop spec i rs = Except.ok doc) ↔ ∀ r ∈ rs, record_ok r = true := by
  intro rs
  induction rs with
  | nil => intro spec i; simp [genLoop]
  | cons r t ih =>
    intro spec i
    constructor
    · rintro ⟨doc, hdoc⟩
      cases hp : process_record spec i r with
      | error e => simp [genLoop, hp] at hdoc
      | ok s' =>
        simp only [genLoop, hp] at hdoc
        intro x hx
        rcases List.mem_cons.mp hx with rfl | hx
        · exact (process_record_isOk spec i x).mp ⟨s', hp⟩
        · exact ((ih s' (i + 1)).mp ⟨doc, hdoc⟩) x hx
    · intro hall
      obtain ⟨s', hs'⟩ := (process_record_isOk spec i r).mpr (hall r (by simp))
      obtain ⟨doc, hdoc⟩ := (ih s' (i + 1)).mpr (fun x hx => hall x (by simp [hx]))
      exact ⟨doc, by simp [genLoop, hs', hdoc]⟩

theorem genLoop_look2 :
    ∀ (rs : List String) (spec : ApiDoc) (i : Nat) (doc : ApiDoc),
      genLoop spec i rs = Except.ok doc → ∀ p m,
        look2 doc.paths p m =
          match lastSlotFrom p m i rs with
          | some op => some op
          | none => look2 spec.paths p m := by
  intro rs
  induction rs with
  | nil =>
    intro spec i doc h p m
    have hs : spec = doc := by simpa [genLoop] using h
    subst hs
    simp [lastSlotFrom]
  | cons r t ih =>
    intro spec i doc h p m
    cases hp : process_record spec i r with
    | error e => simp [genLoop, hp] at h
    | ok s' =>
      simp only [genLoop, hp] at h
      have hih := ih s' (i + 1) doc h p m
      have hpr := process_record_paths spec i r s' hp p m
      cases hls : lastSlotFrom p m (i + 1) t with
      | some op =>
        simp only [lastSlotFrom, hls]
        rw [hih, hls]
      | none =>
        have hl2 : look2 doc.paths p m = look2 s'.paths p m := by rw [hih, hls]
        rw [hl2, hpr]
        simp only [lastSlotFrom, hls]
        cases hrs : recSlot i r with
        | none => simp
        | some s =>
          by_cases hc : s.1 = p ∧ s.2.1 = m
          · simp [hc]
          · simp [hc]

theorem genLoop_pathsNodup :
    ∀ (rs : List String) (spec : ApiDoc) (i : Nat) (doc : ApiDoc),
      pathsNodup spec.paths → genLoop spec i rs = Except.ok doc → pathsNodup doc.paths := by
  intro rs
  induction rs with
  | nil =>
    intro spec i doc h hok
    have hs : spec = doc := by simpa [genLoop] using hok
    subst hs; exact h
  | cons r t ih =>
    intro spec i doc h hok
    cases hp : process_record spec i r with
    | error e => simp [genLoop, hp] at hok
    | ok s' =>
      simp only [genLoop, hp] at hok
      exact ih s' (i + 1) doc (process_record_pathsNodup h hp) hok

theorem lastSlotFrom_some :
    ∀ (rs : List String) (p m : String) (i : Nat) (op : Operation),
      lastSlotFrom p m i rs = some op →
      ∃ j r, rs[j]? = some r ∧ recSlot (i + j) r = some (p, m, op) := by
  intro rs
  induction rs with
  | nil => intro p m i op h; simp [lastSlotFrom] at h
  | cons r t ih =>
    intro p m i op h
    cases hls : lastSlotFrom p m (i + 1) t with
    | some op' =>
      have hop : op' = op := by simpa [lastSlotFrom, hls] using h
      subst hop
      obtain ⟨j, r', hget, hrec⟩ := ih p m (i + 1) op' hls
      refine ⟨j + 1, r', by simpa using hget, ?_⟩
      rw [show i + (j + 1) = i + 1 + j by omega]
      exact hrec
    | none =>
      cases hrs : recSlot i r with
      | none => simp [lastSlotFrom, hls, hrs] at h
      | some s =>
        simp only [lastSlotFrom, hls, hrs] at h
        by_cases hc : s.1 = p ∧ s.2.1 = m
        · rw [if_pos hc] at h
          have hop : s.2.2 = op := by simpa using h
          refine ⟨0, r, by simp, ?_⟩
          rw [Nat.add_zero, hrs]
          obtain ⟨s1, s2, s3⟩ := s
          simp only [Option.some.injEq, Prod.mk.injEq]
          exact ⟨hc.1, hc.2, hop⟩
        · rw [if_neg hc] at h; cases h

/-- The operation a record writes carries that record's index at the end of
its operation id. -/
theorem recSlot_opId {i : Nat} {r : String} {p m : String} {op : Operation}
    (h : recSlot i r = some (p, m, op)) :
    op.operationId = (m ++ "_" ++ opIdPathPart p) ++ "_" ++ decimalStr i := by
  by_cases h0 : pyStrip r = ""
  · simp [recSlot, h0] at h
  · cases hpc : parse_curl r with
    | error e => simp [recSlot, h0, hpc] at h
    | ok d =>
      cases hurl : d.url with
      | none => simp [recSlot, h0, hpc, hurl] at h
      | some u =>
        by_cases hu : u = ""
        · simp [recSlot, h0, hpc, hurl, hu] at h
        · cases hup : urlparse u with
          | error msg => simp [recSlot, h0, hpc, hurl, hu, hup] at h
          | ok up =>
            simp only [recSlot, h0, if_neg h0, hpc, hurl, hu, if_neg hu, hup,
              Option.some.injEq, Prod.mk.injEq] at h
            obtain ⟨rfl, rfl, rfl⟩ := h
            rfl

/-! ## Claims -/

/-- C1 counterexample: a batch whose first transcript has an unterminated
quote does not return a document at all — the tokenizer's `ValueError`
propagates out of `generate_openapi_json` and the following valid transcript
is never processed, contradicting "fatal only to that one transcript". -/
theorem c1_counterexample :
    generate_openapi_json ["curl \"oops", "curl https://ok.example/x"] =
      Except.error (PyErr.valueError "No closing quotation") := rfl

/-- C1 (amended): the Aggregator silently skips blank lines and records with
an absent url, but any exception while handling a record — a tokenization
`ParseError`, the `-F` `TypeError`, or `urlparse`'s bracket `ValueError` —
aborts the whole batch: a document is returned exactly when every record
survives (`record_ok`). -/
theorem c1_batch_all_or_nothing (reqs : List String) :
    (∃ doc, generate_openapi_json reqs = Except.ok doc) ↔
      ∀ r ∈ reqs, record_ok r = true :=
  genLoop_ok_iff reqs emptyApiDoc 0

/-- C1 witness: a batch of surviving records yields a document. -/
theorem c1_witness :
    (generate_openapi_json ["curl https://ok.example/x"]).toOption.isSome = true := by
  obtain ⟨doc, hd⟩ := (c1_batch_all_or_nothing ["curl https://ok.example/x"]).mpr
    (by intro r hr; rw [List.mem_singleton] at hr; subst hr; rfl)
  rw [hd]
  rfl

/-- C2: evaluating the extractor at the failing input `curl -F a=b`: with no
prior body, `details.get('body', {})` returns the pre-initialized `None` (the
`{}` default never applies), and the item assignment raises `TypeError`
instead of creating the mapping. -/
theorem c2_form_flag_typeerror :
    parse_curl "curl -F a=b" = Except.error PyErr.typeError := rfl

/-- C3: evaluating the inferrer at the failing input `True`: because
`isinstance(True, int)` holds in Python, the `int` branch precedes the dead
`bool` branch and a boolean yields the integer schema, not the boolean
schema. -/
theorem c3_bool_infers_integer :
    infer_json_schema (Json.bool true) = Json.obj [("type", Json.str "integer")] := rfl

/-- C4 counterexample: a record whose body is the empty string (set by
`-d ""`) produces an operation with no requestBody at all, because the guard
is Python truthiness (`if body_content:`), not presence. -/
theorem c4_counterexample :
    (generate_openapi_json ["curl https://h4.example -d \"\""]).map
      (fun doc => (look2 doc.paths "/" "get").map (fun op => op.requestBody)) =
      Except.ok (some none) := rfl

/-- C4 (amended): an operation carries a requestBody exactly when the
record's body is truthy (an empty JSON object or empty string yields none);
when present, `required = true` and the content type is the exact-case
`Content-Type` header value, defaulting to `application/json`. -/
theorem c4_requestBody_truthiness (i : Nat) (d : Details) (up : UrlParts) :
    (pyTruthy d.body = true →
      ∃ sch, (mk_path_details i d up).requestBody =
        some { required := true, contentType := contentTypeOf d.headers, schema := sch }) ∧
    (pyTruthy d.body = false → (mk_path_details i d up).requestBody = none) := by
  constructor
  · intro h
    exact ⟨bodySchemaOf d (opIdOf (pyLower d.method) (pathOf up) i),
      by simp [mk_path_details, h]⟩
  · intro h
    simp [mk_path_details, h]

/-- C4 witness: a truthy string body yields a requestBody. -/
theorem c4_witness : ((mk_path_details 0 c4d c4up).requestBody).isSome = true := by
  obtain ⟨sch, hs⟩ := (c4_requestBody_truthiness 0 c4d c4up).1 rfl
  rw [hs]
  rfl

/-- C5 counterexample: with two non-consumed `http…` tokens the record's url
is the second one — the later match overwrote the earlier, contradicting
"first match wins". -/
theorem c5_counterexample :
    parse_curl "curl http://a.example http://b.example" =
      Except.ok { method := "GET", url := some "http://b.example",
                  headers := [], body := Json.null } := rfl

/-- C5 (amended): every non-consumed token with prefix `http` overwrites the
url as it is scanned, so the last such token wins: on a run of url-like
tokens the extractor returns the final one. -/
theorem c5_url_last_match_wins :
    ∀ (ts : List String) (d : Details), ts ≠ [] →
      (∀ t ∈ ts, pyStartsWith t "http" = true) →
      parseLoop ts d = Except.ok { d with url := ts.getLast? } := by
  intro ts
  induction ts with
  | nil => intro d h _; exact absurd rfl h
  | cons t ts' ih =>
    intro d _ hall
    have ht := hall t (by simp)
    cases ts' with
    | nil =>
      simp [parseLoop, ht, List.getLast?]
    | cons t2 ts'' =>
      have h1 : ¬(t = "-X" ∨ t = "--request") := by
        rintro (rfl | rfl) <;> exact absurd ht (by decide)
      have h2 : ¬(t = "-H" ∨ t = "--header") := by
        rintro (rfl | rfl) <;> exact absurd ht (by decide)
      have h3 : ¬(t = "-d" ∨ t = "--data" ∨ t = "--data-raw" ∨ t = "--data-binary") := by
        rintro (rfl | rfl | rfl | rfl) <;> exact absurd ht (by decide)
      have h4 : ¬(t = "-F" ∨ t = "--form") := by
        rintro (rfl | rfl) <;> exact absurd ht (by decide)
      show parseLoop (t :: t2 :: ts'') d = _
      rw [parseLoop, if_neg h1, if_neg h2, if_neg h3, if_neg h4, if_pos ht,
        ih ({ d with url := some t }) (by simp) (fun x hx => hall x (by simp [hx])),
        List.getLast?_cons_cons]

/-- C5 witness: of two url tokens the second is kept. -/
theorem c5_witness :
    parseLoop ["http://a.example", "http://b.example"] initDetails =
      Except.ok { initDetails with url := some "http://b.example" } :=
  c5_url_last_match_wins ["http://a.example", "http://b.example"] initDetails
    (by simp) (by intro t ht; fin_cases ht <;> rfl)

/-- C6 counterexample: a header stored as lowercase `authorization` with a
Bearer value registers no security scheme and attaches no security — the
`headers.get('Authorization')` lookup is exact-case (the parameter exclusion
filter still hides the header, so it does not even become a parameter). -/
theorem c6_counterexample :
    (generate_openapi_json ["curl https://h.example -H \"authorization: Bearer t\""]).map
      (fun doc => (doc.securitySchemes,
        (look2 doc.paths "/" "get").map (fun op => (op.security, op.parameters.length)))) =
      Except.ok ([], some (none, 0)) := rfl

/-- C6 (amended): the `Authorization` and `Content-Type` lookups are
exact-case dict gets (only the value prefix comparison is case-insensitive):
an exactly-named `Authorization` header whose value starts with bearer/basic
(any case) yields the matching security entry and registered scheme, an
absent exact-case key yields neither, and the requestBody content type comes
from the exact-case `Content-Type` key. -/
theorem c6_auth_exact_case (i : Nat) (d : Details) (up : UrlParts) (spec : ApiDoc) :
    (∀ v, assocLookup d.headers "Authorization" = some v →
      pyStartsWith (pyLower v) "bearer " = true →
      (mk_path_details i d up).security = some bearerSecurity ∧
      assocLookup (apply_record spec i d up).securitySchemes "BearerAuth" =
        some bearerScheme) ∧
    (∀ v, assocLookup d.headers "Authorization" = some v →
      pyStartsWith (pyLower v) "bearer " = false →
      pyStartsWith (pyLower v) "basic " = true →
      (mk_path_details i d up).security = some basicSecurity ∧
      assocLookup (apply_record spec i d up).securitySchemes "BasicAuth" =
        some basicScheme) ∧
    (assocLookup d.headers "Authorization" = none →
      (mk_path_details i d up).security = none ∧
      (apply_record spec i d up).securitySchemes = spec.securitySchemes) ∧
    (pyTruthy d.body = true →
      ∃ sch, (mk_path_details i d up).requestBody = some
        { required := true,
          contentType := (assocLookup d.headers "Content-Type").getD "application/json",
          schema := sch }) := by
  refine ⟨?_, ?_, ?_, ?_⟩
  · intro v hv hb
    constructor
    · simp [mk_path_details, securityOf, hv, hb]
    · simp [apply_record, hv, hb, assocLookup_updateAssoc_self]
  · intro v hv hb1 hb2
    constructor
    · simp [mk_path_details, securityOf, hv, hb1, hb2]
    · simp [apply_record, hv, hb1, hb2, assocLookup_updateAssoc_self]
  · intro hv
    constructor
    · simp [mk_path_details, securityOf, hv]
    · simp [apply_record, hv]
  · intro h
    exact ⟨bodySchemaOf d (opIdOf (pyLower d.method) (pathOf up) i),
      by simp [mk_path_details, contentTypeOf, h]⟩

/-- C6 witness: an exact-case `Authorization: Bearer …` header does produce
the bearer security entry and scheme. -/
theorem c6_witness :
    (mk_path_details 0 c6d c6up).security = some bearerSecurity ∧
      assocLookup (apply_record emptyApiDoc 0 c6d c6up).securitySchemes "BearerAuth" =
        some bearerScheme :=
  (c6_auth_exact_case 0 c6d c6up emptyApiDoc).1 "Bearer abc" rfl rfl

/-- C7: in any successfully built document each (path, method) slot occurs
at most once (both key levels are duplicate-free), the operation stored at a
slot is the one of the last record writing that slot (last-write-wins,
`lastSlotFrom`), and operations at distinct slots have distinct operationIds
because each id ends in the record's original enumerate index. -/
theorem c7_paths_lastwrite_unique_ids :
    ∀ (reqs : List String) (doc : ApiDoc), generate_openapi_json reqs = Except.ok doc →
      ((doc.paths.map Prod.fst).Nodup ∧ ∀ e ∈ doc.paths, ((e.2).map Prod.fst).Nodup) ∧
      (∀ p m, look2 doc.paths p m = lastSlotFrom p m 0 reqs) ∧
      (∀ p m p' m' op op', look2 doc.paths p m = some op →
        look2 doc.paths p' m' = some op' → (p, m) ≠ (p', m') →
        op.operationId ≠ op'.operationId) := by
  intro reqs doc h
  have hchar : ∀ p m, look2 doc.paths p m = lastSlotFrom p m 0 reqs := by
    intro p m
    have h2 := genLoop_look2 reqs emptyApiDoc 0 doc h p m
    cases hls : lastSlotFrom p m 0 reqs with
    | some op => rw [h2, hls]
    | none => rw [h2, hls]; rfl
  refine ⟨?_, hchar, ?_⟩
  · exact genLoop_pathsNodup reqs emptyApiDoc 0 doc (by constructor <;> simp [emptyApiDoc]) h
  · intro p m p' m' op op' hop hop' hne
    rw [hchar] at hop hop'
    obtain ⟨j1, r1, hg1, hr1⟩ := lastSlotFrom_some reqs p m 0 op hop
    obtain ⟨j2, r2, hg2, hr2⟩ := lastSlotFrom_some reqs p' m' 0 op' hop'
    simp only [Nat.zero_add] at hr1 hr2
    by_cases hj : j1 = j2
    · subst hj
      rw [hg1] at hg2
      have hr : r1 = r2 := by simpa using hg2
      subst hr
      rw [hr1] at hr2
      obtain ⟨h5, h6, _⟩ : p = p' ∧ m = m' ∧ op = op' := by simpa using hr2
      exact absurd (by rw [h5, h6]) hne
    · intro heq
      have e1 := recSlot_opId hr1
      have e2 := recSlot_opId hr2
      rw [e1, e2] at heq
      exact hj (underscore_decimal_inj heq)

/-- C7 witness: the document of a two-record colliding batch has
duplicate-free path keys. -/
theorem c7_witness : (c7doc.paths.map Prod.fst).Nodup :=
  (c7_paths_lastwrite_unique_ids c7reqs c7doc rfl).1.1

/-- C8: the `/generate_openapi` route rejects every non-list payload with
the `"Input must be a list"` client error, and an empty list yields a
document with empty paths and empty servers. -/
theorem c8_buildDocument_shape :
    (∀ v : Json, (∀ l, v ≠ Json.arr l) → generate v = Except.error PyErr.invalidInput) ∧
    (generate (Json.arr [])).map (fun d => (d.paths, d.servers)) = Except.ok ([], []) := by
  constructor
  · intro v hv
    cases v with
    | arr l => exact absurd rfl (hv l)
    | null => rfl
    | bool b => rfl
    | int n => rfl
    | float s => rfl
    | str s => rfl
    | obj l => rfl
  · rfl

/-- C8 witness: a string payload is rejected. -/
theorem c8_witness : generate (Json.str "not-a-list") = Except.error PyErr.invalidInput :=
  c8_buildDocument_shape.1 (Json.str "not-a-list") (fun _ h => Json.noConfusion h)

/-- C9 counterexample: a collection item with one enabled header entry
(`disabled` absent, so `not disabled` is true) still gets `required = false`
on the header parameter — the header loop hardcodes `False`. -/
theorem c9_counterexample :
    (postman_to_openapi c9collection).map
      (fun d => (look2 d.paths "/" "get").map
        (fun op => op.parameters.map (fun pa => pa.required))) =
      Except.ok (some [false]) := rfl

/-- C9 (amended): query-parameter entries carry `required = not disabled`
from the entry's flag, but header-parameter entries always carry the
constant `required = false` (their disabled flag is ignored). -/
theorem c9_required_from_disabled :
    (∀ q param, mk_postman_query_param q = Except.ok param →
      param.required = !(pyTruthy ((pyGet q "disabled").getD (Json.bool false)))) ∧
    (∀ h param, mk_postman_header_param h = Except.ok (some param) →
      param.required = false) := by
  constructor
  · intro q param hq
    cases q with
    | obj l =>
      simp only [mk_postman_query_param, Except.ok.injEq] at hq
      rw [← hq]
      simp [pyGet]
    | null => simp [mk_postman_query_param] at hq
    | bool b => simp [mk_postman_query_param] at hq
    | int n => simp [mk_postman_query_param] at hq
    | float s => simp [mk_postman_query_param] at hq
    | str s => simp [mk_postman_query_param] at hq
    | arr l => simp [mk_postman_query_param] at hq
  · intro h param hh
    cases h with
    | obj l =>
      simp only [mk_postman_header_param] at hh
      split at hh
      · split at hh
        · simp at hh
        · split at hh
          · simp at hh
          · simp only [Except.ok.injEq, Option.some.injEq] at hh
            rw [← hh]
      · simp at hh
      · split at hh
        · simp at hh
        · simp at hh
    | null => simp [mk_postman_header_param] at hh
    | bool b => simp [mk_postman_header_param] at hh
    | int n => simp [mk_postman_header_param] at hh
    | float s => simp [mk_postman_header_param] at hh
    | str s => simp [mk_postman_header_param] at hh
    | arr l2 => simp [mk_postman_header_param] at hh

/-- C9 witness: an enabled query entry gets `required = not disabled`. -/
theorem c9_witness :
    c9q.required = !(pyTruthy ((pyGet (Json.obj []) "disabled").getD (Json.bool false))) :=
  c9_required_from_disabled.1 (Json.obj []) c9q rfl

/-- C10: when the cursor reaches a recognized argument-taking flag that is
the final token, the `i + 1 < len` guard fails for every flag branch, the
token is skipped, and the record is returned unchanged — no failure, method,
headers, and body keep their prior values. -/
theorem c10_dangling_flag :
    ∀ (f : String) (d : Details), f ∈ argFlags → parseLoop [f] d = Except.ok d := by
  intro f d hf
  fin_cases hf <;> rfl

/-- C10 witness: a dangling `--data` is skipped on the default record. -/
theorem c10_witness : parseLoop ["--data"] initDetails = Except.ok initDetails :=
  c10_dangling_flag "--data" initDetails (by decide)

end NeoloadUtility
